import Mathlib

/-!
Shallow embedding of the core of `src/dvnc_chainlit.py` (DVNC-Chainlit):
the `FineTunedSLM` domain-expert model, the `DVNCSystem` orchestrator
(construction, keyword extraction, design synthesis) and its helpers
`_choose`, `generate_insight`, `_choose_drivers`, `_propose_concept_name`,
`_get_domain_icon`.

Conventions of the embedding:
* Python strings are Lean `String`s; string helpers (`lower`, `strip`,
  `split`, `title`, substring `in`) are translated for the ASCII fragment,
  which covers every string the program manipulates.
* Python dicts (insertion-ordered) are association lists
  `List (String × _)`; dict assignment is `dictInsert` (replace-in-place
  or append), `d[k]` is `List.lookup`.
* The process-wide random source seeded by `random.seed(seed)` is
  externalised as a tape `g : Nat → Nat` together with a draw counter:
  the n-th call of `random.choice(xs)` returns `xs[g n % xs.length]`,
  which is the uniform draw when `g n` is uniform.  Functions that may
  draw return their result together with the updated counter.
* `random.choice([])` raises `IndexError`; fallible paths return
  `Option` (`none` = the Python call raises).
* `datetime.now()` is externalised as an explicit `now : String`
  parameter of the report builder.
-/

namespace DVNC

/-- Python's ASCII whitespace set used by `str.strip()` / `str.split()`:
space, tab, newline, carriage return, vertical tab, form feed. -/
def pyIsSpace (c : Char) : Bool :=
  c = ' ' || c = '\t' || c = '\n' || c = '\r' || c = '\x0b' || c = '\x0c'

/-- `str.strip()` on a character list: drop whitespace from both ends. -/
def stripL (cs : List Char) : List Char :=
  ((cs.dropWhile pyIsSpace).reverse.dropWhile pyIsSpace).reverse

/-- Python `str.strip()`. -/
def pyStrip (s : String) : String := ⟨stripL s.data⟩

/-- Python `str.lower()` (ASCII fragment: `Char.toLower` maps A-Z to a-z
and leaves everything else unchanged, as CPython does on ASCII). -/
def pyLower (s : String) : String := ⟨s.data.map Char.toLower⟩

/-- Python's substring test `needle in hay` on character lists:
`needle` occurs contiguously somewhere in `hay`. -/
def isSub (needle : List Char) : List Char → Bool
  | [] => needle.isEmpty
  | c :: t => needle.isPrefixOf (c :: t) || isSub needle t

/-- Helper of `pySplitL`: accumulate the current (reversed) run of
non-whitespace characters, emitting it when whitespace or the end of the
string is reached.  Mirrors Python `str.split()` with no argument:
runs of whitespace separate tokens and produce no empty tokens. -/
def wsSplitAcc (acc : List Char) : List Char → List (List Char)
  | [] => if acc = [] then [] else [acc.reverse]
  | c :: t =>
    if pyIsSpace c then
      if acc = [] then wsSplitAcc [] t else acc.reverse :: wsSplitAcc [] t
    else wsSplitAcc (c :: acc) t

/-- Python `str.split()` (no separator argument) on a character list. -/
def pySplitL (cs : List Char) : List (List Char) := wsSplitAcc [] cs

/-- Python `str.split()` returning strings. -/
def pySplit (s : String) : List String := (pySplitL s.data).map (⟨·⟩)

/-- Helper of `pyTitle`: the boolean records whether the previous
character was alphabetic (Python: cased). -/
def pyTitleAux (prevAlpha : Bool) : List Char → List Char
  | [] => []
  | c :: t =>
    if c.isAlpha then
      (if prevAlpha then c.toLower else c.toUpper) :: pyTitleAux true t
    else c :: pyTitleAux false t

/-- Python `str.title()` (ASCII fragment): the first letter of each
maximal alphabetic run is uppercased, the rest lowercased. -/
def pyTitle (s : String) : String := ⟨pyTitleAux false s.data⟩

/-- Python dict assignment `d[k] = v` on an insertion-ordered
association list: replace the value in place if the key is present,
otherwise append the new binding at the end. -/
def dictInsert {α : Type} (k : String) (v : α) : List (String × α) → List (String × α)
  | [] => [(k, v)]
  | (k', v') :: t => if k' = k then (k, v) :: t else (k', v') :: dictInsert k v t

/-- The `FineTunedSLM` dataclass of the source: a domain expert holding
one knowledge base (concept name → citation, insertion-ordered), a
selection temperature and a derived system prompt. -/
structure FineTunedSLM where
  domain : String
  knowledge : List (String × String)
  temperature : ℚ
  system_prompt : String
deriving DecidableEq

/-- Construction of a `FineTunedSLM`, including `__post_init__`'s
system prompt.  The dataclass default for `temperature` is `0.6`;
construction sites pass it explicitly. -/
def FineTunedSLM.make (domain : String) (knowledge : List (String × String))
    (temperature : ℚ) : FineTunedSLM :=
  { domain := domain, knowledge := knowledge, temperature := temperature,
    system_prompt :=
      "You are a specialized SLM for " ++ domain ++
      ". Use concise, actionable language. Cite a Da Vinci study when relevant. " ++
      "Prefer design heuristics and constraints over vague generalities." }

/-- `list(knowledge.keys())`. -/
def kbKeys (knowledge : List (String × String)) : List String :=
  knowledge.map Prod.fst

/-- `random.choice(items)` under the externalised random tape: the
uniformly drawn index is `g i % items.length`; on the empty list the
Python call raises `IndexError` (here: `none`, since `g i % 0 = g i`
is out of range). -/
def pyChoice (g : Nat → Nat) (i : Nat) (items : List String) : Option String :=
  items[g i % items.length]?

/-- `FineTunedSLM._choose`.  Empty candidates: a uniform draw from the
full knowledge base (consuming one random draw).  Non-empty candidates
with `temperature >= 0.7` and more than one candidate: a uniform draw
from the candidates.  Otherwise the first candidate, with no draw
consumed. -/
def FineTunedSLM.choose (m : FineTunedSLM) (g : Nat → Nat) (i : Nat)
    (items : List String) : Option String × Nat :=
  if items = [] then (pyChoice g i (kbKeys m.knowledge), i + 1)
  else if mkRat 7 10 ≤ m.temperature ∧ 1 < items.length then (pyChoice g i items, i + 1)
  else (items.head?, i)

/-- `FineTunedSLM.generate_insight`.  Empty keywords: an exploratory
template around a uniformly drawn concept.  Non-empty keywords: the
selected keyword is normalised back to a canonical knowledge-base key by
a case-insensitive exact-or-substring match (`chosen_kw.lower() ==
k.lower() or chosen_kw.lower() in k.lower()`, first key wins); when no
key matches (or the matched key is the empty string, which Python's
`if not concept:` also treats as falsy) the code falls back to
`self._choose(list(self.knowledge.keys()))`.  The `user_prompt` argument
is accepted and ignored, as in the source. -/
def FineTunedSLM.generateInsight (m : FineTunedSLM) (g : Nat → Nat) (i : Nat)
    (promptKeywords : List String) (_userPrompt : String) : Option String × Nat :=
  if promptKeywords = [] then
    match m.choose g i [] with
    | (none, i') => (none, i')
    | (some concept, i') =>
      match List.lookup concept m.knowledge with
      | none => (none, i')
      | some study =>
        (some ("Consider **" ++ concept ++ "**, informed by da Vinci's work on *" ++
          study ++ "*. Translate this into constraints and a measurable performance target."), i')
  else
    match m.choose g i promptKeywords with
    | (none, i1) => (none, i1)
    | (some chosenKw, i1) =>
      let concept0 : Option String :=
        (kbKeys m.knowledge).find? (fun k =>
          (pyLower chosenKw == pyLower k) || isSub (pyLower chosenKw).data (pyLower k).data)
      let step : Option String × Nat :=
        match concept0 with
        | some k => if k = "" then m.choose g i1 (kbKeys m.knowledge) else (some k, i1)
        | none => m.choose g i1 (kbKeys m.knowledge)
      match step with
      | (none, i2) => (none, i2)
      | (some concept, i2) =>
        match List.lookup concept m.knowledge with
        | none => (none, i2)
        | some study =>
          (some ("Leverage **" ++ concept ++ "** (cf. da Vinci's *" ++ study ++
            "*). Define 2–3 constraints, an objective, and a quick benchtop test."), i2)

/-- `self.physics_knowledge` of `DVNCSystem.__init__`. -/
def physicsKnowledge : List (String × String) :=
  [("Fluid Dynamics", "water screws and canal studies"),
   ("Aerodynamics", "ornithopter sketches and airflow notes"),
   ("Lever Mechanics", "gear trains, pulleys, cranes"),
   ("Structural Integrity", "bridges and fortification stress studies"),
   ("Fractal Geometry", "tree branching and river delta patterns"),
   ("Wave Propagation", "sound and light behavior studies")]

/-- `self.biomech_knowledge` of `DVNCSystem.__init__`. -/
def biomechKnowledge : List (String × String) :=
  [("Joint Articulation", "elbow/shoulder motion notebooks"),
   ("Muscular Force", "layered muscle drawings"),
   ("Biological Levers", "limb lever ratios and gait notes"),
   ("Skeletal Structure", "Vitruvian proportions and load paths"),
   ("Kinematic Chains", "sequential movement studies"),
   ("Energy Transfer", "force distribution in living systems")]

/-- `self.anatomy_knowledge` of `DVNCSystem.__init__`. -/
def anatomyKnowledge : List (String × String) :=
  [("Human Proportionality", "Vitruvian Man proportional canon"),
   ("Muscular Systems", "detailed musculature sheets"),
   ("Circulatory System", "venous and arterial mapping"),
   ("Body Mechanics", "posture, stance, and motion sequences"),
   ("Neural Pathways", "brain and nerve studies"),
   ("Sensory Integration", "eye and ear mechanism drawings")]

/-- The orchestrator `DVNCSystem`: its only construction-dependent state
is the insertion-ordered `models` dict. -/
structure DVNCSystem where
  models : List (String × FineTunedSLM)
deriving DecidableEq

/-- `DVNCSystem.__init__`.  `random.seed(seed)` only reseeds the global
random stream, which this embedding externalises as the tape `g`, so the
seed argument carries no further information here.  The models dict is
the two fixed experts followed by a dict assignment for the included
domain: the key is the literal `"Anatomy"` when the stripped name
lowercases to `"anatomy"`, otherwise the stripped name itself — wired,
either way, to the Anatomy knowledge table. -/
def DVNCSystem.init (includeDomain : String) (_seed : Nat) : DVNCSystem :=
  let base : List (String × FineTunedSLM) :=
    [("Physics", FineTunedSLM.make "Physics" physicsKnowledge (mkRat 6 10)),
     ("Biomechanics", FineTunedSLM.make "Biomechanics" biomechKnowledge (mkRat 6 10))]
  let d := pyStrip includeDomain
  if pyLower d = "anatomy" then
    { models := dictInsert "Anatomy" (FineTunedSLM.make "Anatomy" anatomyKnowledge (mkRat 6 10)) base }
  else
    { models := dictInsert d (FineTunedSLM.make d anatomyKnowledge (mkRat 6 10)) base }

/-- The token list of one concept name in `extract_keywords`:
`[p.strip() for p in concept.lower().replace("-", " ").split() if p.strip()]`. -/
def tokensOf (concept : String) : List (List Char) :=
  (pySplitL ((pyLower concept).data.map (fun c => if c = '-' then ' ' else c))).filterMap
    (fun p => let q := stripL p; if q = [] then none else some q)

/-- Python's `<` on strings: strict lexicographic comparison by code
point, a proper prefix sorting before its extensions. -/
def lexLt : List Char → List Char → Bool
  | [], [] => false
  | [], _ :: _ => true
  | _ :: _, [] => false
  | a :: as, b :: bs =>
    if a < b then true
    else if b < a then false
    else lexLt as bs

/-- Python's `<=` on strings (`a <= b` iff not `b < a`). -/
def pyLe (a b : String) : Bool := !(lexLt b.data a.data)

/-- `sorted(set(kws))`: deduplicate, then sort ascending in Python's
string order. -/
def pySortedSet (l : List String) : List String :=
  List.insertionSort (fun a b => pyLe a b = true) l.dedup

/-- The per-expert body of `DVNCSystem.extract_keywords`: every concept
of the expert's knowledge base one of whose tokens occurs as a substring
of the lowercased prompt, deduplicated and sorted. -/
def extractFor (m : FineTunedSLM) (promptLow : List Char) : List String :=
  pySortedSet ((kbKeys m.knowledge).filter
    (fun concept => (tokensOf concept).any (fun t => isSub t promptLow)))

/-- `DVNCSystem.extract_keywords`: lower-case the prompt once, then one
entry per registered model, in the models dict's order. -/
def DVNCSystem.extractKeywords (sys : DVNCSystem) (prompt : String) :
    List (String × List String) :=
  let promptLow := (pyLower prompt).data
  sys.models.map (fun dm => (dm.1, extractFor dm.2 promptLow))

/-- Lazy capture of `re` pattern fragment `(.+?)\*\*` after an opening
`**`: the shortest non-empty run of non-newline characters followed by a
closing `**`; `none` when no closing `**` is reachable without crossing
a newline or the end of the text. -/
def boldCapture : List Char → Option (List Char)
  | [] => none
  | c :: t =>
    if c = '\n' then none
    else
      match t with
      | '*' :: '*' :: _ => some [c]
      | _ => (boldCapture t).map (c :: ·)

/-- The regex match attempt anchored at one start position: the pattern
`\*\*(.+?)\*\*` matches here exactly when the text opens with `**` and a
lazy capture closes. -/
def boldAt (cs : List Char) : Option (List Char) :=
  match cs with
  | '*' :: '*' :: rest => boldCapture rest
  | _ => none

/-- The first match of `re.findall(r"\*\*(.+?)\*\*", txt)`: scan start
positions left to right; return the capture of the first position where
the anchored match succeeds. -/
def findBold : List Char → Option (List Char)
  | [] => none
  | c :: t =>
    match boldAt (c :: t) with
    | some cap => some cap
    | none => findBold t

/-- First bold-marked span of a text, as a string. -/
def findFirstBold (txt : String) : Option String := (findBold txt.data).map (⟨·⟩)

/-- `DVNCSystem._choose_drivers`: first bold span of each insight, in
the iteration order of the insights mapping; when no insight has one,
the domain names themselves; truncated to at most 3. -/
def chooseDrivers (insights : List (String × String)) : List String :=
  let drivers := insights.filterMap (fun p => findFirstBold p.2)
  let drivers := if drivers = [] then insights.map Prod.fst else drivers
  drivers.take 3

/-- Left-to-right effectful `map` over `Option`, the semantics of the
list comprehension `[d.split()[-1] for d in drivers]` whose body can
raise: the first failing element aborts the whole computation. -/
def optionMapList {α β : Type} (f : α → Option β) : List α → Option (List β)
  | [] => some []
  | a :: t =>
    match f a with
    | none => none
    | some b => (optionMapList f t).map (b :: ·)

/-- `DVNCSystem._propose_concept_name`:
`"Project " + "-".join([d.split()[-1] for d in drivers]).title()`.
`d.split()[-1]` raises `IndexError` (here `none`) when `d` has no
non-whitespace character. -/
def proposeConceptName (drivers : List String) : Option String :=
  match optionMapList (fun d => (pySplit d).getLast?) drivers with
  | none => none
  | some nouns => some ("Project " ++ pyTitle (String.intercalate "-" nouns))

/-- `DVNCSystem._get_domain_icon`: `icons.get(domain, "🔬")`. -/
def getDomainIcon (domain : String) : String :=
  if domain = "Physics" then "⚛️"
  else if domain = "Biomechanics" then "🦾"
  else if domain = "Anatomy" then "🫀"
  else "🔬"

/-- Python `sorted` on strings: ascending lexicographic order by code
point. -/
def pySorted (l : List String) : List String :=
  List.insertionSort (fun a b => pyLe a b = true) l

/-- The header section of `synthesize_design`:
`"\n".join(header)` with the timestamp externalised as `now`. -/
def headerSection (prompt now : String) : String :=
  "# 🎨 DVNC.ai — Innovation Report\n*Conceptual Product Prototype*\n\n**Timestamp:** " ++
    now ++ "\n**Challenge:** " ++ prompt ++ "\n"

/-- The insights section of `synthesize_design`: a `###` subsection per
domain, domains in `sorted(insights.keys())` order, each followed by the
domain's insight text. -/
def insightsSection (insights : List (String × String)) : String :=
  String.intercalate "\n"
    ("## 🔬 Multidisciplinary Insights\n" ::
      ((pySorted (insights.map Prod.fst)).map (fun domain =>
        ["### " ++ getDomainIcon domain ++ " " ++ domain,
         ((List.lookup domain insights).getD "") ++ "\n"])).flatten)

/-- The synthesis section of `synthesize_design`. -/
def synthesisSection (conceptName : String) (drivers : List String) : String :=
  String.intercalate "\n"
    ["## 🚀 Concept Synthesis",
     "### **" ++ conceptName ++ "**",
     "",
     "**Primary Innovation Drivers:** `" ++ String.intercalate " × " drivers ++ "`",
     ""]

/-- The fixed architecture section of `synthesize_design`. -/
def architectureSection : String :=
  "### 📐 System Architecture\n\n#### Structural Framework\n" ++
  "- **Core Structure:** Lightweight skeletal frame with modular joints\n" ++
  "- **Material Strategy:** High stiffness-to-weight ratio composites\n" ++
  "- **Modularity:** Interchangeable components for rapid iteration\n\n" ++
  "#### Actuation System\n" ++
  "- **Primary Motion:** Bio-inspired mechanism with optimized lever ratios\n" ++
  "- **Control Logic:** Constraint-first controller (stability → efficiency → elegance)\n" ++
  "- **Power Distribution:** Distributed energy management system\n"

/-- The fixed validation section of `synthesize_design`. -/
def validationSection : String :=
  "### 🧪 Validation Framework\n\n#### Performance Metrics\n" ++
  "| Domain | Key Performance Indicator | Target | Test Method |\n" ++
  "|--------|--------------------------|--------|-------------|\n" ++
  "| **Physics** | Lift/drag ratio | >3.5 | Wind tunnel testing |\n" ++
  "| **Physics** | Structural deflection | <5mm @ rated load | Static load test |\n" ++
  "| **Biomechanics** | Joint torque efficiency | >85% | Dynamometer analysis |\n" ++
  "| **Biomechanics** | Fatigue resistance | >10,000 cycles | Cyclic loading |\n" ++
  "| **Anatomy** | Ergonomic compliance | >90% user satisfaction | User studies |\n" ++
  "| **Anatomy** | Proportional accuracy | ±2% of target | 3D scanning |\n"

/-- The closing line of the fixed roadmap section. -/
def roadmapClosing : String :=
  "*Powered by Leonardo da Vinci's timeless principles of observation and innovation*"

/-- Everything of the fixed roadmap section before its closing line. -/
def roadmapBody : String :=
  "### 🗺️ Implementation Roadmap\n\n#### Phase 1: Proof of Concept (Weeks 1-4)\n" ++
  "- [ ] Convert constraints to parametric CAD model\n" ++
  "- [ ] Develop initial control algorithms\n" ++
  "- [ ] Create simulation environment\n\n" ++
  "#### Phase 2: Prototype Development (Weeks 5-8)\n" ++
  "- [ ] Build physical breadboard prototype\n" ++
  "- [ ] Implement sensor feedback systems\n" ++
  "- [ ] Conduct initial performance tests\n\n" ++
  "#### Phase 3: Iteration & Optimization (Weeks 9-12)\n" ++
  "- [ ] A/B testing with design variants\n" ++
  "- [ ] Machine learning optimization of control parameters\n" ++
  "- [ ] User testing and feedback integration\n\n---\n"

/-- The fixed roadmap section of `synthesize_design`; its last joined
line is `roadmapClosing`. -/
def roadmapSection : String := roadmapBody ++ roadmapClosing

/-- `DVNCSystem.synthesize_design`: drivers, then the concept name
(where an `IndexError` aborts the call: `none`), then the six sections
in their fixed order. -/
def synthesizeDesign (prompt : String) (insights : List (String × String))
    (now : String) : Option (List String) :=
  let drivers := chooseDrivers insights
  match proposeConceptName drivers with
  | none => none
  | some conceptName =>
    some [headerSection prompt now,
          insightsSection insights,
          synthesisSection conceptName drivers,
          architectureSection,
          validationSection,
          roadmapSection]

/-- The concatenation of report sections in order, at the character
level. -/
def concatSections (secs : List String) : List Char :=
  (secs.map String.data).flatten

/-- The driver derivation as the spec's amended wording describes it:
the first bold-marked span of each insight taken in the iteration
(insertion) order of the insights mapping, falling back to the domain
names when no insight has a bold span, truncated to at most 3 entries.
Stated separately from `chooseDrivers` so that the refinement between
code and wording is an explicit theorem. -/
def driversInIterationOrder (insights : List (String × String)) : List String :=
  let spans := insights.filterMap (fun p => findFirstBold p.2)
  (if spans = [] then insights.map Prod.fst else spans).take 3

-- Sanity checks of the string helpers against Python behaviour.
example : pyLower "AbC-dE" = "abc-de" := by decide
example : pyStrip "  a b  " = "a b" := by decide
example : pySplit "  a  bc " = ["a", "bc"] := by decide
example : pyTitle "proportionality-force" = "Proportionality-Force" := by decide
example : isSub "joi".data "a joint".data = true := by decide
example : isSub "x".data "".data = false := by decide
example : dictInsert "a" 1 [("a", 0), ("b", 2)] = [("a", 1), ("b", 2)] := by decide
example : findFirstBold "say **Fluid Dynamics** and **more**" = some "Fluid Dynamics" := by decide
example : findFirstBold "****" = none := by decide
example : findFirstBold "a **x\ny** **z**" = some " " := by decide
example : findFirstBold "***x**" = some "*x" := by decide

/- ------------------------------------------------------------------ -/
/- Shared helper lemmas                                               -/
/- ------------------------------------------------------------------ -/

theorem mem_dictInsert {α : Type} {k : String} {v : α} {l : List (String × α)}
    {p : String × α} (h : p ∈ dictInsert k v l) : p = (k, v) ∨ p ∈ l := by
  induction l with
  | nil => simpa [dictInsert] using h
  | cons hd t ih =>
    rcases hd with ⟨k', v'⟩
    by_cases hk : k' = k
    · simp only [dictInsert, if_pos hk] at h
      rcases List.mem_cons.mp h with h | h
      · exact Or.inl h
      · exact Or.inr (List.mem_cons_of_mem _ h)
    · simp only [dictInsert, if_neg hk] at h
      rcases List.mem_cons.mp h with h | h
      · exact Or.inr (by simp [h])
      · rcases ih h with h' | h'
        · exact Or.inl h'
        · exact Or.inr (List.mem_cons_of_mem _ h')

theorem lookup_dictInsert {α : Type} (k : String) (v : α) (l : List (String × α)) :
    List.lookup k (dictInsert k v l) = some v := by
  induction l with
  | nil => simp [dictInsert, List.lookup]
  | cons hd t ih =>
    rcases hd with ⟨k', v'⟩
    by_cases hk : k' = k
    · simp [dictInsert, if_pos hk, List.lookup]
    · have hne : (k == k') = false := beq_false_of_ne fun h => hk h.symm
      simp [dictInsert, if_neg hk, List.lookup, hne, ih]

theorem optionMapList_eq_map {α β : Type} (f : α → Option β) (g : α → β) (l : List α)
    (h : ∀ a ∈ l, f a = some (g a)) : optionMapList f l = some (l.map g) := by
  induction l with
  | nil => rfl
  | cons a t ih =>
    simp only [optionMapList, h a (by simp), List.map_cons,
      ih (fun x hx => h x (by simp [hx])), Option.map_some']

theorem optionMapList_eq_none {α β : Type} (f : α → Option β) (l : List α)
    (a : α) (ha : a ∈ l) (h : f a = none) : optionMapList f l = none := by
  induction l with
  | nil => cases ha
  | cons b t ih =>
    rcases List.mem_cons.mp ha with rfl | hb
    · simp [optionMapList, h]
    · cases hfb : f b with
      | none => simp [optionMapList, hfb]
      | some v => simp [optionMapList, hfb, ih hb]

/- ------------------------------------------------------------------ -/
/- C7                                                                 -/
/- ------------------------------------------------------------------ -/

/-- C7: for every non-empty candidate list, `_choose` on an expert with
temperature < 0.7 returns the first element of the candidate list,
deterministically: the result is the same for any two random tapes and
draw counters (and no randomness is consumed). -/
theorem c7_low_temperature_first_element (m : FineTunedSLM) (g g' : Nat → Nat)
    (i i' : Nat) (x : String) (xs : List String)
    (h : m.temperature < mkRat 7 10) :
    m.choose g i (x :: xs) = (some x, i) ∧ m.choose g' i' (x :: xs) = (some x, i') := by
  have hnle : ¬ (mkRat 7 10 ≤ m.temperature) := not_le.mpr h
  have hne : (x :: xs) ≠ ([] : List String) := by simp
  constructor <;> simp [FineTunedSLM.choose, hne, hnle]

/-- Witness for C7 at the Physics expert (temperature 0.6) and the
candidate list `["a", "b"]` under two unrelated random tapes. -/
theorem c7_witness :
    (FineTunedSLM.make "Physics" physicsKnowledge (mkRat 6 10)).temperature < mkRat 7 10 ∧
    (FineTunedSLM.make "Physics" physicsKnowledge (mkRat 6 10)).choose
      (fun _ => 5) 0 ["a", "b"] = (some "a", 0) ∧
    (FineTunedSLM.make "Physics" physicsKnowledge (mkRat 6 10)).choose
      (fun n => n * n + 3) 9 ["a", "b"] = (some "a", 9) := by
  have h := c7_low_temperature_first_element
    (FineTunedSLM.make "Physics" physicsKnowledge (mkRat 6 10))
    (fun _ => 5) (fun n => n * n + 3) 0 9 "a" ["b"] (by decide)
  exact ⟨by decide, h.1, h.2⟩

/- ------------------------------------------------------------------ -/
/- C9                                                                 -/
/- ------------------------------------------------------------------ -/

/-- C9 counterexample: the claim quantifies over every list of drivers,
but for the driver `""` there is no last whitespace-delimited word:
`"".split()[-1]` raises `IndexError`, so `_propose_concept_name` returns
no string at all (embedded as `none`) instead of the claimed
`"Project ..."` string. -/
theorem c9_counterexample : proposeConceptName [""] = none := by decide

/-- C9 amended: for every list of drivers each of which contains at
least one non-whitespace character (so that `d.split()[-1]` exists),
`_propose_concept_name` returns `"Project "` prefixed to the
title-cased hyphen-join of the last whitespace-delimited words of the
drivers. -/
theorem c9_propose_concept_name (drivers : List String)
    (h : ∀ d ∈ drivers, pySplit d ≠ []) :
    proposeConceptName drivers =
      some ("Project " ++ pyTitle (String.intercalate "-"
        (drivers.map (fun d => ((pySplit d).getLast?).getD "")))) := by
  unfold proposeConceptName
  rw [optionMapList_eq_map (fun d => (pySplit d).getLast?)
    (fun d => ((pySplit d).getLast?).getD "") drivers ?_]
  intro a ha
  cases hsa : (pySplit a).getLast? with
  | none => exact absurd (List.getLast?_eq_none_iff.mp hsa) (h a ha)
  | some b => simp [hsa]

/-- Witness for C9 at the spec's own example:
`propose_concept_name(["Human Proportionality","Muscular Force"])`
is `"Project Proportionality-Force"`. -/
theorem c9_witness :
    (∀ d ∈ ["Human Proportionality", "Muscular Force"], pySplit d ≠ []) ∧
    proposeConceptName ["Human Proportionality", "Muscular Force"] =
      some "Project Proportionality-Force" := by
  refine ⟨by decide, ?_⟩
  rw [c9_propose_concept_name ["Human Proportionality", "Muscular Force"] (by decide)]
  decide

/- ------------------------------------------------------------------ -/
/- C10                                                                -/
/- ------------------------------------------------------------------ -/

/-- C10: `_propose_concept_name` is not total — any driver list
containing a string with no non-whitespace character makes
`d.split()[-1]` raise `IndexError` (`none`), and `synthesize_design`
therefore fails (returns no report) whenever `_choose_drivers` hands it
such a driver, e.g. when an insight's first bold-marked span is
whitespace. -/
theorem c10_propose_concept_name_partial (drivers : List String) (d : String)
    (hd : d ∈ drivers) (hws : pySplit d = [])
    (prompt now : String) (insights : List (String × String))
    (hins : chooseDrivers insights = drivers) :
    proposeConceptName drivers = none ∧
    synthesizeDesign prompt insights now = none := by
  have hlast : (pySplit d).getLast? = none := by rw [hws]; rfl
  have hp : proposeConceptName drivers = none := by
    unfold proposeConceptName
    rw [optionMapList_eq_none (fun d => (pySplit d).getLast?) drivers d hd hlast]
  refine ⟨hp, ?_⟩
  simp only [synthesizeDesign]
  rw [hins, hp]

/-- Witness for C10: the whitespace bold span `** **` inside an insight
produces the whitespace-only driver `" "`, and the whole synthesis call
fails on it. -/
theorem c10_witness :
    (" " ∈ [" "] ∧ pySplit " " = [] ∧
      chooseDrivers [("Anatomy", "x ** ** y")] = [" "]) ∧
    proposeConceptName [" "] = none ∧
    synthesizeDesign "p" [("Anatomy", "x ** ** y")] "T" = none := by
  have h := c10_propose_concept_name_partial [" "] " " (by decide) (by decide)
    "p" "T" [("Anatomy", "x ** ** y")] (by decide)
  exact ⟨⟨by decide, by decide, by decide⟩, h.1, h.2⟩

/- ------------------------------------------------------------------ -/
/- C4                                                                 -/
/- ------------------------------------------------------------------ -/

/-- C4 counterexample: with `include_domain = "Physics"` the dict
assignment overwrites the fixed Physics expert, so the constructed
system registers two domains, not the claimed three. -/
theorem c4_counterexample :
    (DVNCSystem.init "Physics" 42).models.map Prod.fst = ["Physics", "Biomechanics"] ∧
    ((DVNCSystem.init "Physics" 42).models.map Prod.fst).length ≠ 3 := by decide

set_option maxRecDepth 200000 in
/-- C4 amended: the registered domain keys are Physics and Biomechanics
followed by the included key `k` (`"Anatomy"` when the stripped name
lowercases to `"anatomy"`, otherwise the stripped name); this yields
three domains unless `k` is exactly `"Physics"` or `"Biomechanics"`, in
which case the assignment overwrites that fixed expert and only two
domains remain. -/
theorem c4_registered_domains (includeDomain : String) (seed : Nat) :
    (DVNCSystem.init includeDomain seed).models.map Prod.fst =
      (let k := if pyLower (pyStrip includeDomain) = "anatomy" then "Anatomy"
                else pyStrip includeDomain
       if k = "Physics" ∨ k = "Biomechanics" then ["Physics", "Biomechanics"]
       else ["Physics", "Biomechanics", k]) := by
  by_cases hA : pyLower (pyStrip includeDomain) = "anatomy"
  · simp only [DVNCSystem.init, if_pos hA]
    decide
  · simp only [DVNCSystem.init, if_neg hA]
    by_cases hp : "Physics" = pyStrip includeDomain
    · rw [← hp]
      decide
    · by_cases hb : "Biomechanics" = pyStrip includeDomain
      · rw [← hb]
        decide
      · have hp' : pyStrip includeDomain ≠ "Physics" := fun hh => hp hh.symm
        have hb' : pyStrip includeDomain ≠ "Biomechanics" := fun hh => hb hh.symm
        simp [dictInsert, if_neg hp, if_neg hb, hp', hb']

/- ------------------------------------------------------------------ -/
/- C5                                                                 -/
/- ------------------------------------------------------------------ -/

/-- C5: whenever the stripped included name does not lowercase to
`"anatomy"`, the constructed system holds, under that (stripped) name,
an expert whose knowledge base is the Anatomy knowledge table. -/
theorem c5_other_name_gets_anatomy_knowledge (includeDomain : String) (seed : Nat)
    (h : pyLower (pyStrip includeDomain) ≠ "anatomy") :
    List.lookup (pyStrip includeDomain) (DVNCSystem.init includeDomain seed).models =
      some (FineTunedSLM.make (pyStrip includeDomain) anatomyKnowledge (mkRat 6 10)) ∧
    (FineTunedSLM.make (pyStrip includeDomain) anatomyKnowledge (mkRat 6 10)).knowledge =
      anatomyKnowledge := by
  refine ⟨?_, rfl⟩
  simp only [DVNCSystem.init, if_neg h]
  exact lookup_dictInsert _ _ _

/-- Witness for C5 at `include_domain = "Robotics"`: the "Robotics"
expert carries the Anatomy knowledge table. -/
theorem c5_witness :
    pyLower (pyStrip "Robotics") ≠ "anatomy" ∧
    List.lookup (pyStrip "Robotics") (DVNCSystem.init "Robotics" 0).models =
      some (FineTunedSLM.make (pyStrip "Robotics") anatomyKnowledge (mkRat 6 10)) :=
  ⟨by decide, (c5_other_name_gets_anatomy_knowledge "Robotics" 0 (by decide)).1⟩

/- ------------------------------------------------------------------ -/
/- C1                                                                 -/
/- ------------------------------------------------------------------ -/

/-- Every expert reachable through a constructed system carries one of
the three hard-coded knowledge tables. -/
theorem knowledge_of_mem_models {includeDomain : String} {seed : Nat} {d : String}
    {m : FineTunedSLM} (h : (d, m) ∈ (DVNCSystem.init includeDomain seed).models) :
    m.knowledge = physicsKnowledge ∨ m.knowledge = biomechKnowledge ∨
      m.knowledge = anatomyKnowledge := by
  by_cases hA : pyLower (pyStrip includeDomain) = "anatomy" <;>
    [simp only [DVNCSystem.init, if_pos hA] at h;
     simp only [DVNCSystem.init, if_neg hA] at h] <;>
  · rcases mem_dictInsert h with h | h
    · right; right
      have := congrArg Prod.snd h
      simp only [] at this
      rw [this]
      rfl
    · rcases List.mem_cons.mp h with h | h
      · left
        have := congrArg Prod.snd h
        simp only [] at this
        rw [this]
        rfl
      · right; left
        rcases List.mem_cons.mp h with h | h
        · have := congrArg Prod.snd h
          simp only [] at this
          rw [this]
          rfl
        · cases h

/-- C1: every `DomainExpert` reachable through a successfully
constructed `DVNCSystem` has a non-empty knowledge base, and
`select([])` (`_choose` with empty candidates) therefore always
succeeds: it consumes one random draw and returns the knowledge-base
key at the uniformly drawn index `g i % size`, which is an element of
the knowledge base. -/
theorem c1_select_empty_always_succeeds (includeDomain : String) (seed : Nat)
    (d : String) (m : FineTunedSLM)
    (hm : (d, m) ∈ (DVNCSystem.init includeDomain seed).models)
    (g : Nat → Nat) (i : Nat) :
    m.knowledge ≠ [] ∧
    m.choose g i [] = ((kbKeys m.knowledge)[g i % (kbKeys m.knowledge).length]?, i + 1) ∧
    ∃ c, (kbKeys m.knowledge)[g i % (kbKeys m.knowledge).length]? = some c ∧
      c ∈ kbKeys m.knowledge := by
  have hk := knowledge_of_mem_models hm
  have hne : m.knowledge ≠ [] := by
    rcases hk with h | h | h <;> rw [h] <;> simp [physicsKnowledge, biomechKnowledge,
      anatomyKnowledge]
  refine ⟨hne, rfl, ?_⟩
  have hlen : 0 < (kbKeys m.knowledge).length := by
    cases hkn : m.knowledge with
    | nil => exact absurd hkn hne
    | cons a t => simp [kbKeys, hkn]
  have hlt : g i % (kbKeys m.knowledge).length < (kbKeys m.knowledge).length :=
    Nat.mod_lt _ hlen
  exact ⟨_, List.getElem?_eq_getElem hlt, List.getElem_mem hlt⟩

set_option maxRecDepth 400000 in
/-- Witness for C1 at the Physics expert of the default system and the
tape drawing index 1: `select([])` returns `"Aerodynamics"`. -/
theorem c1_witness :
    (("Physics", FineTunedSLM.make "Physics" physicsKnowledge (mkRat 6 10)) ∈
      (DVNCSystem.init "Anatomy" 42).models) ∧
    (FineTunedSLM.make "Physics" physicsKnowledge (mkRat 6 10)).knowledge ≠ [] ∧
    (FineTunedSLM.make "Physics" physicsKnowledge (mkRat 6 10)).choose (fun _ => 1) 0 [] =
      (some "Aerodynamics", 1) := by
  have h := c1_select_empty_always_succeeds "Anatomy" 42 "Physics"
    (FineTunedSLM.make "Physics" physicsKnowledge (mkRat 6 10)) (by decide) (fun _ => 1) 0
  refine ⟨by decide, h.1, ?_⟩
  rw [h.2.1]
  decide

/- ------------------------------------------------------------------ -/
/- C6                                                                 -/
/- ------------------------------------------------------------------ -/

theorem lexLt_irrefl (l : List Char) : lexLt l l = false := by
  induction l with
  | nil => rfl
  | cons a t ih => simp [lexLt, ih]

theorem lexLt_asymm {a b : List Char} (h : lexLt a b = true) : lexLt b a = false := by
  induction a generalizing b with
  | nil =>
    cases b with
    | nil => simp [lexLt] at h
    | cons y bs => simp [lexLt]
  | cons x as ih =>
    cases b with
    | nil => simp [lexLt] at h
    | cons y bs =>
      by_cases hxy : x < y
      · simp [lexLt, hxy, asymm hxy, ne_of_gt hxy]
      · by_cases hyx : y < x
        · simp [lexLt, hxy, hyx] at h
        · have hne : ¬ y < x := hyx
          simp only [lexLt, if_neg hxy, if_neg hyx] at h
          simp [lexLt, if_neg hyx, if_neg hxy, ih h]

theorem lexLt_eq_of_not {a b : List Char} (hab : lexLt a b = false)
    (hba : lexLt b a = false) : a = b := by
  induction a generalizing b with
  | nil =>
    cases b with
    | nil => rfl
    | cons y bs => simp [lexLt] at hab
  | cons x as ih =>
    cases b with
    | nil => simp [lexLt] at hba
    | cons y bs =>
      by_cases hxy : x < y
      · simp [lexLt, hxy] at hab
      · by_cases hyx : y < x
        · simp [lexLt, hyx] at hba
        · have hx : x = y := le_antisymm (not_lt.mp hyx) (not_lt.mp hxy)
          simp only [lexLt, if_neg hxy, if_neg hyx] at hab
          simp only [lexLt, if_neg hyx, if_neg hxy] at hba
          rw [hx, ih hab hba]

theorem lexLt_trans {a b c : List Char} (hab : lexLt a b = true)
    (hbc : lexLt b c = true) : lexLt a c = true := by
  induction a generalizing b c with
  | nil =>
    cases c with
    | nil =>
      cases b with
      | nil => simp [lexLt] at hab
      | cons y bs => simp [lexLt] at hbc
    | cons z cs => simp [lexLt]
  | cons x as ih =>
    cases b with
    | nil => simp [lexLt] at hab
    | cons y bs =>
      cases c with
      | nil => simp [lexLt] at hbc
      | cons z cs =>
        by_cases hxy : x < y <;> by_cases hyz : y < z
        · have hxz : x < z := lt_trans hxy hyz
          simp [lexLt, hxz]
        · have hzy : ¬ z < y := fun hz => by
            simp [lexLt, if_neg hyz, hz] at hbc
          have hyez : y = z := le_antisymm (not_lt.mp hzy) (not_lt.mp hyz)
          have hxz : x < z := hyez ▸ hxy
          simp [lexLt, hxz]
        · have hyx : ¬ y < x := fun hy => by
            simp [lexLt, if_neg hxy, hy] at hab
          have hxey : x = y := le_antisymm (not_lt.mp hyx) (not_lt.mp hxy)
          have hxz : x < z := hxey ▸ hyz
          simp [lexLt, hxz]
        · have hyx : ¬ y < x := fun hy => by
            simp [lexLt, if_neg hxy, hy] at hab
          have hzy : ¬ z < y := fun hz => by
            simp [lexLt, if_neg hyz, hz] at hbc
          have hxey : x = y := le_antisymm (not_lt.mp hyx) (not_lt.mp hxy)
          have hyez : y = z := le_antisymm (not_lt.mp hzy) (not_lt.mp hyz)
          have htl : lexLt as bs = true := by
            simpa [lexLt, if_neg hxy, if_neg hyx] using hab
          have htl' : lexLt bs cs = true := by
            simpa [lexLt, if_neg hyz, if_neg hzy] using hbc
          have hxz : ¬ x < z := by rw [hxey, hyez]; exact lt_irrefl z
          have hzx : ¬ z < x := by rw [hxey, hyez]; exact lt_irrefl z
          simp [lexLt, if_neg hxz, if_neg hzx, ih htl htl']

instance : IsTotal String (fun a b => pyLe a b = true) := by
  constructor
  intro a b
  by_cases h : lexLt b.data a.data = true
  · right
    simp [pyLe, lexLt_asymm h]
  · left
    simp only [pyLe, Bool.not_eq_true] at h
    simp [pyLe, h]

instance : IsTrans String (fun a b => pyLe a b = true) := by
  constructor
  intro a b c hab hbc
  simp only [pyLe, Bool.not_eq_true'] at hab hbc ⊢
  by_cases hca : lexLt c.data a.data = true
  · by_cases hba : lexLt b.data a.data = true
    · rw [hba] at hab
      cases hab
    · by_cases hcb : lexLt c.data b.data = true
      · rw [hcb] at hbc
        cases hbc
      · have h1 : lexLt b.data a.data = false := by simpa using hba
        have h2 : lexLt c.data b.data = false := by simpa using hcb
        by_cases hbc' : lexLt a.data b.data = true
        · have := lexLt_trans hca hbc'
          rw [this] at h2
          cases h2
        · have h3 : lexLt a.data b.data = false := by simpa using hbc'
          have : a.data = b.data := lexLt_eq_of_not h3 h1
          rw [← this] at h2
          rw [hca] at h2
          cases h2
  · simpa using hca

theorem mem_pySortedSet {l : List String} {c : String} :
    c ∈ pySortedSet l ↔ c ∈ l := by
  unfold pySortedSet
  rw [(List.perm_insertionSort _ l.dedup).mem_iff, List.mem_dedup]

theorem sorted_pySortedSet (l : List String) :
    List.Sorted (fun a b => pyLe a b = true) (pySortedSet l) :=
  List.sorted_insertionSort _ _

theorem nodup_pySortedSet (l : List String) : (pySortedSet l).Nodup :=
  ((List.perm_insertionSort _ l.dedup).nodup_iff).mpr l.nodup_dedup

theorem ne_nil_of_mem_tokensOf {c : String} {t : List Char}
    (h : t ∈ tokensOf c) : t ≠ [] := by
  unfold tokensOf at h
  rcases List.mem_filterMap.mp h with ⟨p, _, hp⟩
  by_cases hq : stripL p = []
  · simp [hq] at hp
  · rw [if_neg hq] at hp
    exact (Option.some.inj hp) ▸ hq

theorem extractFor_nil (m : FineTunedSLM) : extractFor m [] = [] := by
  unfold extractFor
  have hfil : (kbKeys m.knowledge).filter
      (fun concept => (tokensOf concept).any (fun t => isSub t [])) = [] := by
    rw [List.filter_eq_nil_iff]
    intro c _
    simp only [List.any_eq_true, not_exists]
    rintro t ⟨ht, hsub⟩
    have : isSub t [] = false := by
      have hne := ne_nil_of_mem_tokensOf ht
      unfold isSub
      simpa [List.isEmpty_iff] using hne
    rw [this] at hsub
    cases hsub
  rw [hfil]
  rfl

/-- C6: for every prompt and every registered expert, the extraction
result for that expert's domain is exactly the set of concept names one
of whose whitespace/hyphen tokens occurs as a substring of the
lowercased prompt; the per-domain list is sorted ascending in Python's
string order and deduplicated, and the empty prompt yields the empty
list. -/
theorem c6_extract_keywords (includeDomain : String) (seed : Nat) (prompt : String)
    (d : String) (m : FineTunedSLM)
    (hm : (d, m) ∈ (DVNCSystem.init includeDomain seed).models) :
    ((d, extractFor m (pyLower prompt).data) ∈
      (DVNCSystem.init includeDomain seed).extractKeywords prompt) ∧
    (∀ c, c ∈ extractFor m (pyLower prompt).data ↔
        c ∈ kbKeys m.knowledge ∧
          ∃ t ∈ tokensOf c, isSub t (pyLower prompt).data = true) ∧
    List.Sorted (fun a b => pyLe a b = true) (extractFor m (pyLower prompt).data) ∧
    (extractFor m (pyLower prompt).data).Nodup ∧
    (prompt = "" → extractFor m (pyLower prompt).data = []) := by
  refine ⟨?_, ?_, sorted_pySortedSet _, nodup_pySortedSet _, ?_⟩
  · unfold DVNCSystem.extractKeywords
    exact List.mem_map.mpr ⟨(d, m), hm, rfl⟩
  · intro c
    unfold extractFor
    rw [mem_pySortedSet, List.mem_filter]
    simp [List.any_eq_true]
  · intro h
    subst h
    exact extractFor_nil m

set_option maxRecDepth 400000 in
/-- Witness for C6 at the Biomechanics expert of the default system and
the prompt `"a joint"`: the extraction entry is present and strictly
sorted, and the concrete extraction equals `["Joint Articulation"]`. -/
theorem c6_witness :
    (("Biomechanics",
        extractFor (FineTunedSLM.make "Biomechanics" biomechKnowledge (mkRat 6 10))
          (pyLower "a joint").data) ∈
      (DVNCSystem.init "Anatomy" 42).extractKeywords "a joint") ∧
    List.Sorted (fun a b => pyLe a b = true)
      (extractFor (FineTunedSLM.make "Biomechanics" biomechKnowledge (mkRat 6 10))
        (pyLower "a joint").data) ∧
    extractFor (FineTunedSLM.make "Biomechanics" biomechKnowledge (mkRat 6 10))
      (pyLower "a joint").data = ["Joint Articulation"] := by
  have h := c6_extract_keywords "Anatomy" 42 "a joint" "Biomechanics"
    (FineTunedSLM.make "Biomechanics" biomechKnowledge (mkRat 6 10)) (by decide)
  exact ⟨h.1, h.2.2.1, by decide⟩

/- ------------------------------------------------------------------ -/
/- C3                                                                 -/
/- ------------------------------------------------------------------ -/

set_option maxRecDepth 400000 in
/-- C3 counterexample: at the Physics expert (temperature 0.6 < 0.7)
with the unmatched candidate `"zzzz"`, the fallback concept is
deterministically the first knowledge-base key, `"Fluid Dynamics"`,
while `select([])` under the same random state (tape value 1) yields
`"Aerodynamics"`: the fallback is not a uniform draw from the full
knowledge base as the claim states. -/
theorem c3_counterexample :
    ((FineTunedSLM.make "Physics" physicsKnowledge (mkRat 6 10)).generateInsight
        (fun _ => 1) 0 ["zzzz"] "x").1 =
      some ("Leverage **Fluid Dynamics** (cf. da Vinci's *water screws and canal studies*). " ++
        "Define 2–3 constraints, an objective, and a quick benchtop test.") ∧
    ((FineTunedSLM.make "Physics" physicsKnowledge (mkRat 6 10)).choose
        (fun _ => 1) 0 []).1 = some "Aerodynamics" ∧
    ("Fluid Dynamics" : String) ≠ "Aerodynamics" := by
  refine ⟨by decide, by decide, by decide⟩

/-- C3 amended: with non-empty candidates and no case-insensitive
exact-or-substring match against the knowledge-base keys, the code falls
back to `select` over the **full key list** (not over `[]`): with
temperature < 0.7 the fallback concept is therefore deterministically
the first knowledge-base key, and no randomness is consumed. -/
theorem c3_fallback_uses_full_key_list (m : FineTunedSLM) (g : Nat → Nat) (i : Nat)
    (kw : String) (kws : List String) (userPrompt : String)
    (k0 s0 : String) (rest : List (String × String))
    (hkb : m.knowledge = (k0, s0) :: rest)
    (htemp : m.temperature < mkRat 7 10)
    (hnomatch : ∀ k ∈ kbKeys m.knowledge,
      ((pyLower kw == pyLower k) || isSub (pyLower kw).data (pyLower k).data) = false) :
    m.generateInsight g i (kw :: kws) userPrompt =
      (some ("Leverage **" ++ k0 ++ "** (cf. da Vinci's *" ++ s0 ++
        "*). Define 2–3 constraints, an objective, and a quick benchtop test."), i) := by
  have hnle : ¬ (mkRat 7 10 ≤ m.temperature) := not_le.mpr htemp
  have hchoose1 : m.choose g i (kw :: kws) = (some kw, i) := by
    simp [FineTunedSLM.choose, hnle]
  have hfind : (kbKeys m.knowledge).find? (fun k =>
      (pyLower kw == pyLower k) || isSub (pyLower kw).data (pyLower k).data) = none := by
    rw [List.find?_eq_none]
    intro x hx
    simp [hnomatch x hx]
  have hchoose2 : m.choose g i (kbKeys m.knowledge) = (some k0, i) := by
    rw [hkb]
    simp [FineTunedSLM.choose, kbKeys, hnle]
  have hlookup : List.lookup k0 m.knowledge = some s0 := by
    rw [hkb]
    simp [List.lookup]
  simp only [FineTunedSLM.generateInsight, hchoose1, hfind, hchoose2, hlookup,
    List.cons_ne_nil, if_neg, ite_false, reduceCtorEq]

set_option maxRecDepth 400000 in
/-- Witness for C3 amended at the Physics expert and candidate
`"zzzz"`. -/
theorem c3_witness :
    ((FineTunedSLM.make "Physics" physicsKnowledge (mkRat 6 10)).knowledge =
        ("Fluid Dynamics", "water screws and canal studies") ::
          [("Aerodynamics", "ornithopter sketches and airflow notes"),
           ("Lever Mechanics", "gear trains, pulleys, cranes"),
           ("Structural Integrity", "bridges and fortification stress studies"),
           ("Fractal Geometry", "tree branching and river delta patterns"),
           ("Wave Propagation", "sound and light behavior studies")]) ∧
    (FineTunedSLM.make "Physics" physicsKnowledge (mkRat 6 10)).generateInsight
        (fun n => n + 4) 2 ["zzzz"] "y" =
      (some ("Leverage **Fluid Dynamics** (cf. da Vinci's *water screws and canal studies*). " ++
        "Define 2–3 constraints, an objective, and a quick benchtop test."), 2) := by
  refine ⟨by decide, ?_⟩
  have h := c3_fallback_uses_full_key_list
    (FineTunedSLM.make "Physics" physicsKnowledge (mkRat 6 10)) (fun n => n + 4) 2
    "zzzz" [] "y" "Fluid Dynamics" "water screws and canal studies"
    [("Aerodynamics", "ornithopter sketches and airflow notes"),
     ("Lever Mechanics", "gear trains, pulleys, cranes"),
     ("Structural Integrity", "bridges and fortification stress studies"),
     ("Fractal Geometry", "tree branching and river delta patterns"),
     ("Wave Propagation", "sound and light behavior studies")]
    (by decide) (by decide) (by decide)
  exact h

/- ------------------------------------------------------------------ -/
/- C2                                                                 -/
/- ------------------------------------------------------------------ -/

set_option maxRecDepth 400000 in
/-- C2 counterexample: `synthesize_design` does not sort the insights
mapping before deriving drivers.  For the mapping inserted in the order
`B`, `A`, the drivers are `["beta", "alpha"]` (iteration order), not the
alphabetical `["alpha", "beta"]` the claim requires. -/
theorem c2_counterexample :
    synthesizeDesign "p" [("B", "**beta**"), ("A", "**alpha**")] "T" =
      some [headerSection "p" "T",
            insightsSection [("B", "**beta**"), ("A", "**alpha**")],
            synthesisSection "Project Beta-Alpha" ["beta", "alpha"],
            architectureSection, validationSection, roadmapSection] ∧
    (["beta", "alpha"] : List String) ≠ ["alpha", "beta"] :=
  ⟨by decide, by decide⟩

/-- C2 amended: `synthesize_design` derives its drivers by
`_choose_drivers` on the insights mapping **as passed**, without
sorting: the driver list is the first bold-marked span of each insight
in the iteration order of the mapping (domain names when no span
exists), truncated to at most 3 entries, and the synthesis section
embeds exactly that list. -/
theorem c2_drivers_in_iteration_order (insights : List (String × String))
    (prompt now : String) (secs : List String)
    (h : synthesizeDesign prompt insights now = some secs) :
    chooseDrivers insights = driversInIterationOrder insights ∧
    (chooseDrivers insights).length ≤ 3 ∧
    ∃ cn, proposeConceptName (chooseDrivers insights) = some cn ∧
      secs[2]? = some (synthesisSection cn (chooseDrivers insights)) := by
  refine ⟨rfl, ?_, ?_⟩
  · have hcd : chooseDrivers insights =
        (if insights.filterMap (fun p => findFirstBold p.2) = []
         then insights.map Prod.fst
         else insights.filterMap (fun p => findFirstBold p.2)).take 3 := rfl
    rw [hcd]
    exact List.length_take_le _ _
  · simp only [synthesizeDesign] at h
    cases hp : proposeConceptName (chooseDrivers insights) with
    | none => rw [hp] at h; cases h
    | some cn =>
      rw [hp] at h
      obtain rfl := Option.some.inj h
      exact ⟨cn, rfl, rfl⟩

set_option maxRecDepth 400000 in
/-- Witness for C2 amended at a two-domain insights mapping. -/
theorem c2_witness :
    chooseDrivers [("B", "**b**"), ("A", "**a**")] =
      driversInIterationOrder [("B", "**b**"), ("A", "**a**")] ∧
    (chooseDrivers [("B", "**b**"), ("A", "**a**")]).length ≤ 3 := by
  have h := c2_drivers_in_iteration_order [("B", "**b**"), ("A", "**a**")] "q" "T"
    [headerSection "q" "T", insightsSection [("B", "**b**"), ("A", "**a**")],
     synthesisSection "Project B-A" ["b", "a"],
     architectureSection, validationSection, roadmapSection] (by decide)
  exact ⟨h.1, h.2.1⟩

/- ------------------------------------------------------------------ -/
/- C8                                                                 -/
/- ------------------------------------------------------------------ -/

theorem dataAppend (a b : String) : (a ++ b).data = a.data ++ b.data := by
  cases a
  cases b
  rfl

set_option maxRecDepth 400000 in
/-- C8 counterexample: the claim quantifies over every insights
mapping, but when an insight's first bold-marked span is whitespace
(`** **`) the concept-name step raises `IndexError`, so
`synthesize_design` returns no sections at all. -/
theorem c8_counterexample :
    synthesizeDesign "p" [("A", "a ** ** b")] "T" = none := by decide

/-- C8 amended: whenever `synthesize_design` returns a report, it is
exactly the six sections header, insights, synthesis, architecture,
validation, roadmap in this order; the insights section iterates the
domains in ascending sorted order; the concatenation of the sections
starts with the `#`-level header character and ends with the fixed
roadmap closing line. -/
theorem c8_report_section_structure (prompt now : String)
    (insights : List (String × String)) (secs : List String)
    (h : synthesizeDesign prompt insights now = some secs) :
    secs.length = 6 ∧
    secs[0]? = some (headerSection prompt now) ∧
    secs[1]? = some (insightsSection insights) ∧
    (∃ cn, proposeConceptName (chooseDrivers insights) = some cn ∧
      secs[2]? = some (synthesisSection cn (chooseDrivers insights))) ∧
    secs[3]? = some architectureSection ∧
    secs[4]? = some validationSection ∧
    secs[5]? = some roadmapSection ∧
    List.Sorted (fun a b => pyLe a b = true) (pySorted (insights.map Prod.fst)) ∧
    (concatSections secs).head? = some '#' ∧
    ∃ pre, concatSections secs = pre ++ roadmapClosing.data := by
  simp only [synthesizeDesign] at h
  cases hp : proposeConceptName (chooseDrivers insights) with
  | none => rw [hp] at h; cases h
  | some cn =>
    rw [hp] at h
    obtain rfl := Option.some.inj h
    refine ⟨rfl, rfl, rfl, ⟨cn, rfl, rfl⟩, rfl, rfl, rfl,
      List.sorted_insertionSort _ _, rfl, ?_⟩
    refine ⟨(headerSection prompt now).data ++ ((insightsSection insights).data ++
      ((synthesisSection cn (chooseDrivers insights)).data ++ (architectureSection.data ++
      (validationSection.data ++ roadmapBody.data)))), ?_⟩
    simp [concatSections, roadmapSection, dataAppend, List.append_assoc]

set_option maxRecDepth 400000 in
/-- Witness for C8 amended at a one-domain insights mapping. -/
theorem c8_witness :
    synthesizeDesign "p" [("Physics", "**a** x")] "T" =
      some [headerSection "p" "T", insightsSection [("Physics", "**a** x")],
            synthesisSection "Project A" ["a"],
            architectureSection, validationSection, roadmapSection] ∧
    ([headerSection "p" "T", insightsSection [("Physics", "**a** x")],
      synthesisSection "Project A" ["a"],
      architectureSection, validationSection, roadmapSection] : List String).length = 6 ∧
    (concatSections [headerSection "p" "T", insightsSection [("Physics", "**a** x")],
      synthesisSection "Project A" ["a"],
      architectureSection, validationSection, roadmapSection]).head? = some '#' := by
  have hd : synthesizeDesign "p" [("Physics", "**a** x")] "T" =
      some [headerSection "p" "T", insightsSection [("Physics", "**a** x")],
            synthesisSection "Project A" ["a"],
            architectureSection, validationSection, roadmapSection] := by decide
  have h := c8_report_section_structure "p" "T" [("Physics", "**a** x")]
    [headerSection "p" "T", insightsSection [("Physics", "**a** x")],
     synthesisSection "Project A" ["a"],
     architectureSection, validationSection, roadmapSection] hd
  exact ⟨hd, h.1, h.2.2.2.2.2.2.2.2.1⟩

end DVNC
